import Mathlib

/-!
Verification development for the OpenTruth certificate protocol
(content hashing, Merkle tree over file digests, canonical certificate
serialization for signing, signature verification, structural validation,
and Seal key-identity derivation).

The definitions below are shallow embeddings of the TypeScript sources:
  - src/lib/sui.ts        (serializeForSigning, verifyCertificateSignature)
  - src/lib/merkle.ts     (buildMerkleTree, getMerkleProof, verifyMerkleProof,
                           and the concatenated crypto/seal modules:
                           hashBytes, hashString, encryptFileWithSeal)
  - src/lib/certificate.ts (validateCertificate)

JavaScript strings/objects are modelled as Lean `String` and association
lists `List (String × Json)`; JS exceptions are modelled with `Except`;
byte buffers are `List Nat` (each entry < 256 where it matters).
-/

namespace OpenTruth

/-! ## Hex encoding and decoding (Node Buffer.from(s, "hex") / buf.toString("hex")) -/

/-- Lowercase hex digit for a value 0..15, as produced by
`Buffer.toString("hex")` and `Number.prototype.toString(16)`. -/
def hexDigitChar (n : Nat) : Char :=
  if n < 10 then Char.ofNat (48 + n) else Char.ofNat (87 + n)

/-- The sixteen lowercase hex digit characters, 0-9 then a-f. -/
def lhexChars : List Char :=
  (List.range 16).map hexDigitChar

/-- Value of a hex digit character; `Buffer.from(s, "hex")` accepts both cases. -/
def hexVal (c : Char) : Option Nat :=
  if 48 ≤ c.toNat ∧ c.toNat ≤ 57 then some (c.toNat - 48)
  else if 97 ≤ c.toNat ∧ c.toNat ≤ 102 then some (c.toNat - 97 + 10)
  else if 65 ≤ c.toNat ∧ c.toNat ≤ 70 then some (c.toNat - 65 + 10)
  else none

/-- Bytes to lowercase hex characters (`Buffer.toString("hex")`). -/
def hexEncode : List Nat → List Char
  | [] => []
  | b :: bs => hexDigitChar (b / 16) :: hexDigitChar (b % 16) :: hexEncode bs

/-- Hex characters to bytes (`Buffer.from(s, "hex")`): decodes pairs of hex
digits and stops at the first invalid digit or dangling odd character. -/
def hexDecode : List Char → List Nat
  | c1 :: c2 :: rest =>
    match hexVal c1 with
    | none => []
    | some hi =>
      match hexVal c2 with
      | none => []
      | some lo => (16 * hi + lo) :: hexDecode rest
  | _ => []

/-! ## String helpers -/

/-- Does the character list `p` occur as an initial segment of `s`? -/
def charsStartWith (p s : List Char) : Bool :=
  match p, s with
  | [], _ => true
  | _ :: _, [] => false
  | p :: ps, c :: cs => (p == c) && charsStartWith ps cs

/-- Models `String.prototype.startsWith`, executable in the kernel. -/
def strStartsWith (s pat : String) : Bool :=
  charsStartWith pat.data s.data

/-- Models `h.replace(/^sha256:/, "")` — strips one leading "sha256:" tag.
This is also `stripHashTag` behaviour used across the crypto module. -/
def stripSha256 (s : String) : String :=
  if strStartsWith s "sha256:" then s.drop 7 else s

/-- Models `root.replace(/^0x/, "")`. -/
def strip0x (s : String) : String :=
  if strStartsWith s "0x" then s.drop 2 else s

/-! ## Lexicographic string comparison and stable insertion sort

`Array.prototype.sort()` with no comparator sorts strings by code units;
for the ASCII keys appearing in certificates this coincides with the
codepoint comparison below. The sort itself is modelled by a stable
insertion sort, which agrees with the (stable) JS sort on any input. -/

/-- Lexicographic "less or equal" on character lists, by codepoint. -/
def charsLe : List Char → List Char → Bool
  | [], _ => true
  | _ :: _, [] => false
  | a :: as, b :: bs =>
    if a.toNat < b.toNat then true
    else if b.toNat < a.toNat then false
    else charsLe as bs

/-- Lexicographic "less or equal" on strings. -/
def strLe (a b : String) : Bool :=
  charsLe a.data b.data

/-- Insert `x` into `l` before the first element whose key is not below
`key x` (stable insertion step). -/
def orderedInsertKey {α : Type} (key : α → String) (x : α) : List α → List α
  | [] => [x]
  | y :: ys => if strLe (key x) (key y) then x :: y :: ys else y :: orderedInsertKey key x ys

/-- Stable insertion sort by a string-valued key. -/
def sortByKey {α : Type} (key : α → String) : List α → List α
  | [] => []
  | x :: xs => orderedInsertKey key x (sortByKey key xs)

/-! ## JSON values and JSON.stringify

JSON values parsed from or built for certificates. Objects are association
lists in insertion order; a genuine JS object never has duplicate keys.
JSON numeric literals in certificates (timestamps, sizes, counts) are
modelled as integers. -/

inductive Json where
  | str : String → Json
  | num : Int → Json
  | bool : Bool → Json
  | null : Json
  | arr : List Json → Json
  | obj : List (String × Json) → Json

/-- A backslash escape pair. -/
def escPair (c : Char) : List Char :=
  '\\' :: [c]

/-- JSON string escaping as performed by `JSON.stringify` (QuoteJSONString):
quote and backslash are escaped with a backslash, the five control
characters with short forms get those, and the remaining control characters
become a \u00XX escape (two lowercase hex digits of the code point). -/
def jsonEscapeChar (c : Char) : List Char :=
  if c = '"' then escPair '"'
  else if c = '\\' then escPair '\\'
  else if c = '\x08' then escPair 'b'
  else if c = '\x09' then escPair 't'
  else if c = '\x0a' then escPair 'n'
  else if c = '\x0c' then escPair 'f'
  else if c = '\x0d' then escPair 'r'
  else if c.toNat < 32 then
    '\\' :: 'u' :: '0' :: '0' :: hexEncode [c.toNat]
  else [c]

/-- A JSON string literal: surrounding quotes plus escaping. -/
def jsonQuote (s : String) : String :=
  "\"" ++ String.mk (s.data.map jsonEscapeChar).flatten ++ "\""

mutual

/-- Plain `JSON.stringify` (no replacer): objects are serialized in the
field order of the value. -/
def stringifyJson : Json → String
  | .str s => jsonQuote s
  | .num n => toString n
  | .bool b => if b then "true" else "false"
  | .null => "null"
  | .arr xs => "[" ++ stringifyElems xs ++ "]"
  | .obj fs => "\x7b" ++ stringifyMembers fs ++ "\x7d"

def stringifyElems : List Json → String
  | [] => ""
  | [x] => stringifyJson x
  | x :: y :: xs => stringifyJson x ++ "," ++ stringifyElems (y :: xs)

def stringifyMembers : List (String × Json) → String
  | [] => ""
  | [kv] => jsonQuote kv.1 ++ ":" ++ stringifyJson kv.2
  | kv :: kv2 :: fs => jsonQuote kv.1 ++ ":" ++ stringifyJson kv.2 ++ "," ++ stringifyMembers (kv2 :: fs)

end

mutual

/-- The effect of passing a property-name array `P` as the `replacer`
argument of `JSON.stringify`: at EVERY object level, only the properties
named in `P` are kept, and they are emitted in the order of `P`.
`serializeForSigning` always passes a sorted duplicate-free `P`, for which
"order of `P`" is exactly the lexicographic key order produced by
`sortByKey` below. Arrays are never filtered. -/
def filterJson (P : List String) : Json → Json
  | .str s => .str s
  | .num n => .num n
  | .bool b => .bool b
  | .null => .null
  | .arr xs => .arr (filterArr P xs)
  | .obj fs => .obj (sortByKey Prod.fst (filterFields P fs))

def filterArr (P : List String) : List Json → List Json
  | [] => []
  | x :: xs => filterJson P x :: filterArr P xs

def filterFields (P : List String) : List (String × Json) → List (String × Json)
  | [] => []
  | kv :: fs =>
    if P.contains kv.1 then (kv.1, filterJson P kv.2) :: filterFields P fs
    else filterFields P fs

end

/-! ## serializeForSigning (src/lib/sui.ts) -/

/-- Models `const { proofs, storage, ...certToSign } = cert` — drops the two keys,
keeping the insertion order of the remaining fields. -/
def stripPS (cert : List (String × Json)) : List (String × Json) :=
  cert.filter fun kv => !(kv.1 == "proofs" || kv.1 == "storage")

/-- Source:
```
export function serializeForSigning(cert: any): string {
  const { proofs, storage, ...certToSign } = cert;
  return JSON.stringify(certToSign, Object.keys(certToSign).sort());
}
```
`Object.keys(certToSign).sort()` is the sorted list of TOP-LEVEL keys; as
the replacer argument of `JSON.stringify` it acts as a property allowlist
at every nesting level. -/
def serializeForSigning (cert : List (String × Json)) : String :=
  let certToSign := stripPS cert
  let keys := sortByKey id (certToSign.map Prod.fst)
  stringifyJson (filterJson keys (Json.obj certToSign))

/-! ## verifyCertificateSignature (src/lib/sui.ts)

`verifyPersonalMessage` and `PublicKey.toSuiAddress` come from the external
`@mysten/sui.js` SDK; they are abstracted as a `recoverAddr` parameter that
returns the Sui address recovered from (message, signature), or `none` when
the SDK call throws (the surrounding try/catch then returns false). -/

/-- Reads `certificate.author.suiAddress`; a missing/ill-typed field yields
`none` (the code's strict equality against a string is then false, and a
missing `author` object throws inside the same try/catch — also false). -/
def certAuthorSuiAddress (cert : List (String × Json)) : Option String :=
  match cert.lookup "author" with
  | some (Json.obj a) =>
    match a.lookup "suiAddress" with
    | some (Json.str s) => some s
    | _ => none
  | _ => none

/-- Source:
```
const { proofs, storage, ...certToVerify } = certificate;
const message = serializeForSigning(certToVerify);
const isValid = await verifyPersonalMessage(messageBytes, signature);
const signatureAddress = isValid.toSuiAddress();
return signatureAddress === certificate.author.suiAddress;
```
(with `catch { return false }`). -/
def verifyCertificateSignature (recoverAddr : String → String → Option String)
    (cert : List (String × Json)) (signature : String) (_publicKey : String) : Bool :=
  let certToVerify := stripPS cert
  let message := serializeForSigning certToVerify
  match recoverAddr message signature with
  | none => false
  | some addr =>
    match certAuthorSuiAddress cert with
    | some a => addr == a
    | none => false

/-! ## validateCertificate (src/lib/certificate.ts) -/

def requiredFields : List String :=
  ["version", "type", "timestamp", "author", "artifact", "proofs", "storage"]

/-- The JS `field in cert` test. It throws `TypeError` when `cert` is a
primitive (null, number, string, boolean). For objects it checks own
properties (the required field names do not occur on `Object.prototype`),
and for arrays the only own non-index property is `"length"`. -/
def jsHasProp (cert : Json) (field : String) : Except String Bool :=
  match cert with
  | .obj fs => .ok (fs.any fun kv => kv.1 == field)
  | .arr _ => .ok (field == "length")
  | _ => .error "TypeError"

/-- Models `requiredFields.every((field) => field in cert)` — short-circuits on the
first false, and propagates the `in`-operator TypeError. -/
def jsEveryIn (cert : Json) : List String → Except String Bool
  | [] => .ok true
  | f :: fs =>
    match jsHasProp cert f with
    | .error e => .error e
    | .ok false => .ok false
    | .ok true => jsEveryIn cert fs

/-- One step of optional chaining `v?.k`: `none` stands for JS undefined;
null and undefined short-circuit to undefined; a primitive or array has no
property named `k` for the key names used here. -/
def optChainProp (v : Option Json) (k : String) : Option Json :=
  match v with
  | some (Json.obj fs) => fs.lookup k
  | _ => none

/-- Source:
```
export function validateCertificate(cert: any): cert is OpenTruthCertificate {
  const requiredFields = ["version", "type", "timestamp", "author", "artifact", "proofs", "storage"];
  const hasRequired = requiredFields.every((field) => field in cert);
  if (!hasRequired) return false;
  if (!cert.artifact?.hash?.startsWith("sha256:")) return false;
  if (!Number.isInteger(cert.artifact?.size)) return false;
  if (!["ED25519", "SECP256K1"].includes(cert.proofs?.signature?.scheme)) return false;
  return true;
}
```
Note `cert.artifact?.hash?.startsWith(...)`: optional chaining only guards
null/undefined, so a non-string `hash` value makes the `.startsWith` call
itself throw TypeError. `Number.isInteger` succeeds exactly on integer
numbers (numeric literals are modelled as integers). -/
def validateCertificate (cert : Json) : Except String Bool :=
  match jsEveryIn cert requiredFields with
  | .error e => .error e
  | .ok false => .ok false
  | .ok true =>
    match optChainProp (optChainProp (some cert) "artifact") "hash" with
    | none => .ok false
    | some Json.null => .ok false
    | some (Json.str h) =>
      if !strStartsWith h "sha256:" then .ok false
      else
        match optChainProp (optChainProp (some cert) "artifact") "size" with
        | some (Json.num _) =>
          match optChainProp (optChainProp (optChainProp (some cert) "proofs") "signature") "scheme" with
          | some (Json.str s) => .ok (s == "ED25519" || s == "SECP256K1")
          | _ => .ok false
        | _ => .ok false
    | some _ => .error "TypeError"

/-- The artifact digest text `cert.artifact?.hash` when it is a string. -/
def certArtifactHash (cert : Json) : Option String :=
  match optChainProp (optChainProp (some cert) "artifact") "hash" with
  | some (Json.str h) => some h
  | _ => none

/-- Modelled from the spec: the digest text encoding required by §6 —
`"sha256:" + lowercase-hex(32 bytes)`, exactly 71 characters. Used only to
compare the specified canonical form against what the code checks. -/
def specDigestTextOk (s : String) : Bool :=
  s.length == 71 && strStartsWith s "sha256:" && (s.data.drop 7).all fun c => lhexChars.contains c

/-! ## Merkle engine (src/lib/merkle.ts over merkletreejs)

`buildMerkleTree` passes the callback
`(_data: Buffer) => { throw new Error("Use async version"); }` as the
MerkleTree hash function. The constructor builds all tree levels eagerly,
so as soon as two nodes must be combined (i.e. for two or more leaves) the
callback throws, the surrounding catch rethrows
"Failed to build Merkle tree: Use async version", and no tree is produced.
With exactly one leaf no pair is ever hashed and the root is the leaf. -/

structure MTree where
  leaves : List (List Nat)
  layers : List (List (List Nat))

def buildMerkleTree (fileHashes : List String) : Except String (MTree × String) :=
  if fileHashes.length = 0 then
    .error "Cannot build Merkle tree with no hashes"
  else
    let cleanHashes := fileHashes.map stripSha256
    let leaves := cleanHashes.map fun h => hexDecode h.data
    if 2 ≤ leaves.length then
      .error "Failed to build Merkle tree: Use async version"
    else
      let root := String.mk (hexEncode (leaves.headD []))
      .ok (⟨leaves, [leaves]⟩, "0x" ++ root)

/-- merkletreejs `getProof` leaf search: the JS loop scans all leaves and
keeps the LAST index whose buffer equals the target. -/
def lastIndexOfLeaf (leaves : List (List Nat)) (leaf : List Nat) : Option Nat :=
  leaves.enum.foldl (fun acc li => if li.2 == leaf then some li.1 else acc) none

/-- merkletreejs `getProof` layer walk: at each layer take the pair sibling
when it exists, then halve the index. -/
def proofLayers : List (List (List Nat)) → Nat → List (List Nat)
  | [], _ => []
  | layer :: rest, index =>
    let pairIndex := if index % 2 = 1 then index - 1 else index + 1
    (if pairIndex < layer.length then [layer.getD pairIndex []] else []) ++
      proofLayers rest (index / 2)

def getMerkleProof (tree : MTree) (fileHash : String) : List String :=
  let cleanHash := stripSha256 fileHash
  let leaf := hexDecode cleanHash.data
  match lastIndexOfLeaf tree.leaves leaf with
  | none => []
  | some i => (proofLayers tree.layers i).map fun p => "0x" ++ String.mk (hexEncode p)

/-- Here `verifyMerkleProof` calls the static `MerkleTree.verify` with the same
throwing hash callback (and no options, so `sortPairs` is false there).
With an empty proof the loop body never runs and the result is the byte
comparison of leaf and root; with a non-empty proof the first combination
step calls the throwing callback and the surrounding catch returns false. -/
def verifyMerkleProof (proof : List String) (fileHash : String) (root : String) : Bool :=
  let leaf := hexDecode (stripSha256 fileHash).data
  let rootBuffer := hexDecode (strip0x root).data
  match proof with
  | [] => leaf == rootBuffer
  | _ :: _ => false

/-! ## SHA-256 (the `crypto.subtle.digest("SHA-256", ...)` primitive)

The Web Crypto digest used by `hashFile`/`hashString`/`hashBytes` is the
standard FIPS 180-4 SHA-256 function, implemented here over byte lists with
32-bit modular arithmetic. -/

def w32 (n : Nat) : Nat := n % 4294967296

def rotr32 (x n : Nat) : Nat := w32 (x / 2 ^ n + x % 2 ^ n * 2 ^ (32 - n))

def shr32 (x n : Nat) : Nat := x / 2 ^ n

def xor3 (a b c : Nat) : Nat := Nat.xor (Nat.xor a b) c

def bsig0 (x : Nat) : Nat := xor3 (rotr32 x 2) (rotr32 x 13) (rotr32 x 22)

def bsig1 (x : Nat) : Nat := xor3 (rotr32 x 6) (rotr32 x 11) (rotr32 x 25)

def ssig0 (x : Nat) : Nat := xor3 (rotr32 x 7) (rotr32 x 18) (shr32 x 3)

def ssig1 (x : Nat) : Nat := xor3 (rotr32 x 17) (rotr32 x 19) (shr32 x 10)

def chFun (x y z : Nat) : Nat := Nat.xor (Nat.land x y) (Nat.land (Nat.xor x 4294967295) z)

def majFun (x y z : Nat) : Nat := xor3 (Nat.land x y) (Nat.land x z) (Nat.land y z)

/-- The sixty-four SHA-256 round constants of FIPS 180-4, written in
decimal. -/
def sha256K : List Nat :=
  [1116352408, 1899447441, 3049323471, 3921009573, 961987163, 1508970993,
   2453635748, 2870763221, 3624381080, 310598401, 607225278, 1426881987,
   1925078388, 2162078206, 2614888103, 3248222580, 3835390401, 4022224774,
   264347078, 604807628, 770255983, 1249150122, 1555081692, 1996064986,
   2554220882, 2821834349, 2952996808, 3210313671, 3336571891, 3584528711,
   113926993, 338241895, 666307205, 773529912, 1294757372, 1396182291,
   1695183700, 1986661051, 2177026350, 2456956037, 2730485921, 2820302411,
   3259730800, 3345764771, 3516065817, 3600352804, 4094571909, 275423344,
   430227734, 506948616, 659060556, 883997877, 958139571, 1322822218,
   1537002063, 1747873779, 1955562222, 2024104815, 2227730452, 2361852424,
   2428436474, 2756734187, 3204031479, 3329325298]

structure Regs where
  a : Nat
  b : Nat
  c : Nat
  d : Nat
  e : Nat
  f : Nat
  g : Nat
  h : Nat

/-- The eight SHA-256 initial hash values of FIPS 180-4, in decimal. -/
def initRegs : Regs :=
  ⟨1779033703, 3144134277, 1013904242, 2773480762,
   1359893119, 2600822924, 528734635, 1541459225⟩

def roundStep (r : Regs) (kw : Nat × Nat) : Regs :=
  let t1 := w32 (r.h + bsig1 r.e + chFun r.e r.f r.g + kw.1 + kw.2)
  let t2 := w32 (bsig0 r.a + majFun r.a r.b r.c)
  ⟨w32 (t1 + t2), r.a, r.b, r.c, w32 (r.d + t1), r.e, r.f, r.g⟩

/-- Big-endian 32-bit words from bytes. -/
def bytesToWords : List Nat → List Nat
  | b0 :: b1 :: b2 :: b3 :: rest => (((b0 * 256 + b1) * 256 + b2) * 256 + b3) :: bytesToWords rest
  | _ => []

def nextW (ws : List Nat) : Nat :=
  let n := ws.length
  w32 (ssig1 (ws.getD (n - 2) 0) + ws.getD (n - 7) 0 + ssig0 (ws.getD (n - 15) 0) + ws.getD (n - 16) 0)

def extendSchedule : Nat → List Nat → List Nat
  | 0, ws => ws
  | k + 1, ws => extendSchedule k (ws ++ [nextW ws])

def compressChunk (hs : Regs) (chunk : List Nat) : Regs :=
  let ws := extendSchedule 48 (bytesToWords chunk)
  let r := (sha256K.zip ws).foldl roundStep hs
  ⟨w32 (hs.a + r.a), w32 (hs.b + r.b), w32 (hs.c + r.c), w32 (hs.d + r.d),
   w32 (hs.e + r.e), w32 (hs.f + r.f), w32 (hs.g + r.g), w32 (hs.h + r.h)⟩

/-- Big-endian 64-bit byte expansion (also `DataView.setBigUint64(.., false)`,
which wraps its argument modulo 2^64 — each byte extraction below picks the
same 8 low-order bytes). -/
def beBytes8 (n : Nat) : List Nat :=
  [n / 2 ^ 56 % 256, n / 2 ^ 48 % 256, n / 2 ^ 40 % 256, n / 2 ^ 32 % 256,
   n / 2 ^ 24 % 256, n / 2 ^ 16 % 256, n / 2 ^ 8 % 256, n % 256]

/-- FIPS 180-4 padding: append 0x80, zeros to 56 mod 64, then bit length. -/
def sha256Pad (msg : List Nat) : List Nat :=
  let zeros := (119 - msg.length % 64) % 64
  msg ++ [128] ++ List.replicate zeros 0 ++ beBytes8 (8 * msg.length)

def chunks64 (l : List Nat) : List (List Nat) :=
  if h : l = [] then []
  else l.take 64 :: chunks64 (l.drop 64)
termination_by l.length
decreasing_by
  simp only [List.length_drop]
  have := List.length_pos.mpr h
  omega

def be4 (w : Nat) : List Nat := [w / 16777216 % 256, w / 65536 % 256, w / 256 % 256, w % 256]

def digestBytes (r : Regs) : List Nat :=
  be4 r.a ++ be4 r.b ++ be4 r.c ++ be4 r.d ++ be4 r.e ++ be4 r.f ++ be4 r.g ++ be4 r.h

def sha256 (msg : List Nat) : List Nat :=
  digestBytes ((chunks64 (sha256Pad msg)).foldl compressChunk initRegs)

/-! ## hashBytes / hashString (src/lib/crypto.ts) -/

/-- Models `hashBytes(data)`: SHA-256 digest of the bytes, rendered as
`"sha256:" + lowercase hex`. -/
def hashBytes (data : List Nat) : String :=
  "sha256:" ++ String.mk (hexEncode (sha256 data))

/-- Models `new TextEncoder().encode(input)` — UTF-8 bytes of the string. -/
def utf8Bytes (s : String) : List Nat :=
  s.toUTF8.toList.map fun b => b.toNat

/-- Models `hashString(input)`: UTF-8 encode, SHA-256, `"sha256:" + hex`. -/
def hashString (input : String) : String :=
  "sha256:" ++ String.mk (hexEncode (sha256 (utf8Bytes input)))

/-! ## Seal key-identity derivation (the two encryptFileWithSeal variants)

Only the keyId computation is modelled; the encryption call itself is the
external `@mysten/seal` SDK. -/

/-- Localnet variant:
```
const timestamp = Date.now();
const keyIdBuffer = new Uint8Array(32);
new DataView(keyIdBuffer.buffer).setBigUint64(0, BigInt(timestamp), false);
const keyId = '0x' + Array.from(keyIdBuffer).map(b => b.toString(16).padStart(2, '0')).join('');
```
The `ownerAddress` parameter of `encryptFileWithSeal` is validated but not
used in the derivation. -/
def sealKeyIdFromTimestamp (_ownerAddress : String) (timestamp : Nat) : String :=
  let keyIdBuffer := beBytes8 timestamp ++ List.replicate 24 0
  "0x" ++ String.mk (hexEncode keyIdBuffer)

/-- Testnet variant: ``const keyId = `${ownerAddress}::${Date.now()}`;`` -/
def sealKeyIdOwnerNonce (ownerAddress : String) (timestamp : Nat) : String :=
  ownerAddress ++ "::" ++ toString timestamp

/-! ## Concrete certificates and digests used as test inputs -/

/-- A base certificate (pre-proofs, pre-storage) whose artifact hash is the
all-a digest. -/
def certHashA : List (String × Json) :=
  [("version", .str "1.0"),
   ("type", .str "opentruth.certificate"),
   ("timestamp", .num 1700000000000),
   ("author", .obj [("suiAddress", .str "0x11")]),
   ("artifact", .obj [("type", .str "image"),
                      ("hash", .str "sha256:aaaaaaaaaaaaaaaaaaaaaaaaaaaaaaaaaaaaaaaaaaaaaaaaaaaaaaaaaaaaaaaa"),
                      ("size", .num 4),
                      ("mimeType", .str "image/png")])]

/-- The same base certificate with a different artifact hash (all-b digest). -/
def certHashB : List (String × Json) :=
  [("version", .str "1.0"),
   ("type", .str "opentruth.certificate"),
   ("timestamp", .num 1700000000000),
   ("author", .obj [("suiAddress", .str "0x11")]),
   ("artifact", .obj [("type", .str "image"),
                      ("hash", .str "sha256:bbbbbbbbbbbbbbbbbbbbbbbbbbbbbbbbbbbbbbbbbbbbbbbbbbbbbbbbbbbbbbbb"),
                      ("size", .num 4),
                      ("mimeType", .str "image/png")])]

/-- A certificate with fields in one insertion order and one set of
proofs/storage values. -/
def c3certA : List (String × Json) :=
  [("version", .str "1.0"),
   ("timestamp", .num 5),
   ("proofs", .str "P1"),
   ("storage", .str "S1")]

/-- The same logical content with the two signed fields in the opposite
insertion order, a different proofs value, and no storage field. -/
def c3certB : List (String × Json) :=
  [("timestamp", .num 5),
   ("version", .str "1.0"),
   ("proofs", .str "P2")]

/-- A stand-in for the external SDK signature recovery: every signature
recovers to the fixed address 0x1111. -/
def recoverStub : String → String → Option String := fun _ _ => some "0x1111"

/-- A certificate authored by 0x2222 (different from what `recoverStub`
recovers). -/
def c4cert : List (String × Json) :=
  [("author", Json.obj [("suiAddress", Json.str "0x2222")])]

/-- A structurally complete certificate whose artifact digest text
"sha256:zz" is not of the canonical 71-character lowercase-hex form. -/
def c5badCert : Json :=
  .obj [("version", .str "1.0"),
        ("type", .str "opentruth.certificate"),
        ("timestamp", .num 1),
        ("author", .obj [("suiAddress", .str "0x11")]),
        ("artifact", .obj [("type", .str "image"),
                           ("hash", .str "sha256:zz"),
                           ("size", .num 10),
                           ("mimeType", .str "image/png")]),
        ("proofs", .obj [("signature", .obj [("scheme", .str "ED25519"),
                                             ("signature", .str "sig"),
                                             ("publicKey", .str "pk")])]),
        ("storage", .obj [("walrusBlobId", .str "BLOB:x"),
                          ("network", .str "testnet"),
                          ("uploadedAt", .num 2)])]

/-- A structurally complete certificate with a canonical digest text. -/
def c5goodCert : Json :=
  .obj [("version", .str "1.0"),
        ("type", .str "opentruth.certificate"),
        ("timestamp", .num 1),
        ("author", .obj [("suiAddress", .str "0x11")]),
        ("artifact", .obj [("type", .str "image"),
                           ("hash", .str "sha256:aaaaaaaaaaaaaaaaaaaaaaaaaaaaaaaaaaaaaaaaaaaaaaaaaaaaaaaaaaaaaaaa"),
                           ("size", .num 10),
                           ("mimeType", .str "image/png")]),
        ("proofs", .obj [("signature", .obj [("scheme", .str "ED25519"),
                                             ("signature", .str "sig"),
                                             ("publicKey", .str "pk")])]),
        ("storage", .obj [("walrusBlobId", .str "BLOB:x"),
                          ("network", .str "testnet"),
                          ("uploadedAt", .num 2)])]

/-- A wellformed digest string used as a single Merkle leaf. -/
def d71 : String :=
  "sha256:0123456789abcdef0123456789abcdef0123456789abcdef0123456789abcdef"

/-! # Theorems -/

/-! ## Helper lemmas: hex round-trip -/

theorem lhex_check : ∀ c ∈ lhexChars,
    (match hexVal c with
     | some v => decide (v < 16) && (hexDigitChar v == c)
     | none => false) = true := by decide

theorem lhex_exists (c : Char) (hc : c ∈ lhexChars) :
    ∃ v, hexVal c = some v ∧ v < 16 ∧ hexDigitChar v = c := by
  have h := lhex_check c hc
  cases hv : hexVal c with
  | none => rw [hv] at h; exact absurd h (by simp)
  | some v =>
    rw [hv] at h
    simp only [Bool.and_eq_true, decide_eq_true_eq, beq_iff_eq] at h
    exact ⟨v, rfl, h.1, h.2⟩

theorem hexEncode_hexDecode : ∀ cs : List Char, (∀ c ∈ cs, c ∈ lhexChars) →
    cs.length % 2 = 0 → hexEncode (hexDecode cs) = cs
  | [], _, _ => rfl
  | [_], _, heven => by simp at heven
  | c1 :: c2 :: rest, hhex, heven => by
    obtain ⟨v1, hv1, hlt1, hd1⟩ := lhex_exists c1 (hhex c1 (by simp))
    obtain ⟨v2, hv2, hlt2, hd2⟩ := lhex_exists c2 (hhex c2 (by simp))
    have hrest : ∀ c ∈ rest, c ∈ lhexChars := fun c hc => hhex c (by simp [hc])
    have heven2 : rest.length % 2 = 0 := by
      simp only [List.length_cons] at heven; omega
    have ih := hexEncode_hexDecode rest hrest heven2
    have hdec : hexDecode (c1 :: c2 :: rest) = (16 * v1 + v2) :: hexDecode rest := by
      simp only [hexDecode, hv1, hv2]
    rw [hdec]
    have e1 : (16 * v1 + v2) / 16 = v1 := by omega
    have e2 : (16 * v1 + v2) % 16 = v2 := by omega
    show hexDigitChar ((16 * v1 + v2) / 16) :: hexDigitChar ((16 * v1 + v2) % 16) ::
        hexEncode (hexDecode rest) = c1 :: c2 :: rest
    rw [e1, e2, hd1, hd2, ih]

theorem hexEncode_length : ∀ bs : List Nat, (hexEncode bs).length = 2 * bs.length
  | [] => rfl
  | b :: bs => by
    show (hexDigitChar (b / 16) :: hexDigitChar (b % 16) :: hexEncode bs).length = 2 * (b :: bs).length
    simp only [List.length_cons, hexEncode_length bs]
    omega

/-! ## Helper lemmas: lexicographic order on strings -/

theorem char_toNat_inj {a b : Char} (h : a.toNat = b.toNat) : a = b := by
  have := congrArg Char.ofNat h
  rwa [Char.ofNat_toNat, Char.ofNat_toNat] at this

theorem charsLe_total : ∀ as bs : List Char, charsLe as bs = true ∨ charsLe bs as = true := by
  intro as
  induction as with
  | nil => intro bs; left; rfl
  | cons a as ih =>
    intro bs
    cases bs with
    | nil => right; rfl
    | cons b bs =>
      rcases Nat.lt_trichotomy a.toNat b.toNat with h | h | h
      · left; simp [charsLe, h]
      · have h1 : ¬ a.toNat < b.toNat := by omega
        have h2 : ¬ b.toNat < a.toNat := by omega
        simp only [charsLe, if_neg h1, if_neg h2, if_pos, h]
        simpa [h1, h2] using ih bs
      · right; simp [charsLe, h, Nat.lt_asymm h]

theorem charsLe_antisymm : ∀ as bs : List Char,
    charsLe as bs = true → charsLe bs as = true → as = bs := by
  intro as
  induction as with
  | nil =>
    intro bs _ h2
    cases bs with
    | nil => rfl
    | cons b bs => simp [charsLe] at h2
  | cons a as ih =>
    intro bs h1 h2
    cases bs with
    | nil => simp [charsLe] at h1
    | cons b bs =>
      rcases Nat.lt_trichotomy a.toNat b.toNat with h | h | h
      · simp [charsLe, h, Nat.lt_asymm h] at h2
      · have heq : a = b := char_toNat_inj h
        subst heq
        have h1' : charsLe as bs = true := by
          simpa [charsLe] using h1
        have h2' : charsLe bs as = true := by
          simpa [charsLe] using h2
        rw [ih bs h1' h2']
      · simp [charsLe, h, Nat.lt_asymm h] at h1

theorem charsLe_trans : ∀ as bs cs : List Char,
    charsLe as bs = true → charsLe bs cs = true → charsLe as cs = true := by
  intro as
  induction as with
  | nil => intro bs cs _ _; rfl
  | cons a as ih =>
    intro bs cs h1 h2
    cases bs with
    | nil => simp [charsLe] at h1
    | cons b bs =>
      cases cs with
      | nil => simp [charsLe] at h2
      | cons c cs =>
        rcases Nat.lt_trichotomy a.toNat b.toNat with hab | hab | hab
        · rcases Nat.lt_trichotomy b.toNat c.toNat with hbc | hbc | hbc
          · have : a.toNat < c.toNat := by omega
            simp [charsLe, this]
          · have : a.toNat < c.toNat := by omega
            simp [charsLe, this]
          · simp [charsLe, hbc, Nat.lt_asymm hbc] at h2
        · rcases Nat.lt_trichotomy b.toNat c.toNat with hbc | hbc | hbc
          · have : a.toNat < c.toNat := by omega
            simp [charsLe, this]
          · have hnac : ¬ a.toNat < c.toNat := by omega
            have hnca : ¬ c.toNat < a.toNat := by omega
            have h1' : charsLe as bs = true := by
              simpa [charsLe, hab, Nat.lt_irrefl] using h1
            have h2' : charsLe bs cs = true := by
              simpa [charsLe, hbc, Nat.lt_irrefl] using h2
            simp only [charsLe, if_neg hnac, if_neg hnca]
            exact ih bs cs h1' h2'
          · simp [charsLe, hbc, Nat.lt_asymm hbc] at h2
        · simp [charsLe, hab, Nat.lt_asymm hab] at h1

theorem string_data_inj {a b : String} (h : a.data = b.data) : a = b := by
  calc a = String.mk a.data := rfl
  _ = String.mk b.data := by rw [h]
  _ = b := rfl

theorem strLe_total (a b : String) : strLe a b = true ∨ strLe b a = true :=
  charsLe_total a.data b.data

theorem strLe_antisymm {a b : String} (h1 : strLe a b = true) (h2 : strLe b a = true) : a = b :=
  string_data_inj (charsLe_antisymm a.data b.data h1 h2)

theorem strLe_trans {a b c : String} (h1 : strLe a b = true) (h2 : strLe b c = true) :
    strLe a c = true :=
  charsLe_trans a.data b.data c.data h1 h2

theorem strLe_false_flip {a b : String} (h : strLe a b = false) : strLe b a = true :=
  (strLe_total a b).resolve_left (by simp [h])

/-! ## Helper lemmas: insertion sort under permutation of distinct keys -/

theorem orderedInsertKey_comm {α : Type} (key : α → String) (x y : α)
    (hne : key x ≠ key y) :
    ∀ l : List α, orderedInsertKey key x (orderedInsertKey key y l) =
      orderedInsertKey key y (orderedInsertKey key x l) := by
  intro l
  induction l with
  | nil =>
    cases hxy : strLe (key x) (key y) with
    | true =>
      have hyx : strLe (key y) (key x) = false := by
        cases h : strLe (key y) (key x)
        · rfl
        · exact absurd (strLe_antisymm hxy h) hne
      simp [orderedInsertKey, hxy, hyx]
    | false =>
      have hyx : strLe (key y) (key x) = true := strLe_false_flip hxy
      simp [orderedInsertKey, hxy, hyx]
  | cons z zs ih =>
    cases hxy : strLe (key x) (key y) with
    | true =>
      have hyx : strLe (key y) (key x) = false := by
        cases h : strLe (key y) (key x)
        · rfl
        · exact absurd (strLe_antisymm hxy h) hne
      cases hyz : strLe (key y) (key z) with
      | true =>
        have hxz : strLe (key x) (key z) = true := strLe_trans hxy hyz
        simp [orderedInsertKey, hxy, hyx, hyz, hxz]
      | false =>
        cases hxz : strLe (key x) (key z) with
        | true => simp [orderedInsertKey, hxy, hyx, hyz, hxz]
        | false => simp [orderedInsertKey, hxy, hyx, hyz, hxz, ih]
    | false =>
      have hyx : strLe (key y) (key x) = true := strLe_false_flip hxy
      cases hxz : strLe (key x) (key z) with
      | true =>
        have hyz : strLe (key y) (key z) = true := strLe_trans hyx hxz
        simp [orderedInsertKey, hxy, hyx, hyz, hxz]
      | false =>
        cases hyz : strLe (key y) (key z) with
        | true => simp [orderedInsertKey, hxy, hyx, hyz, hxz]
        | false => simp [orderedInsertKey, hxy, hyx, hyz, hxz, ih]

theorem sortByKey_eq_of_perm {α : Type} (key : α → String) {l1 l2 : List α}
    (hp : l1.Perm l2) :
    (l1.map key).Nodup → sortByKey key l1 = sortByKey key l2 := by
  induction hp with
  | nil => intro _; rfl
  | cons x hp ih =>
    intro hnd
    simp only [List.map_cons, List.nodup_cons] at hnd
    simp only [sortByKey]
    rw [ih hnd.2]
  | swap x y l =>
    intro hnd
    have hne : key y ≠ key x := by
      simp only [List.map_cons, List.nodup_cons, List.mem_cons] at hnd
      intro h
      exact hnd.1 (Or.inl h)
    simp only [sortByKey]
    exact orderedInsertKey_comm key y x hne (sortByKey key l)
  | trans hp1 hp2 ih1 ih2 =>
    intro hnd
    rw [ih1 hnd, ih2 (((hp1.map key).nodup_iff).mp hnd)]

/-! ## Helper lemmas: the replacer filter -/

theorem filterFields_eq (P : List String) :
    ∀ l : List (String × Json), filterFields P l =
      (l.filter fun kv => P.contains kv.1).map fun kv => (kv.1, filterJson P kv.2) := by
  intro l
  induction l with
  | nil => rfl
  | cons kv fs ih =>
    simp only [filterFields, List.filter_cons]
    cases h : P.contains kv.1 <;> simp [h, ih]

/-! ## Claim theorems -/

/-- Claim C1 (code_bug evaluation): the canonical signed byte sequence does
NOT determine the artifact content digest. `certHashA` and `certHashB` are
base certificates identical except for `artifact.hash`, yet
`serializeForSigning` produces the same byte sequence for both: the sorted
top-level key list passed as the `JSON.stringify` replacer array also
filters nested objects, and "hash" is not a top-level key, so the digest is
dropped from the signed bytes. -/
theorem serializeForSigning_drops_artifact_hash :
    serializeForSigning certHashA = serializeForSigning certHashB ∧
    certArtifactHash (Json.obj certHashA) ≠ certArtifactHash (Json.obj certHashB) :=
  ⟨rfl, by decide⟩

/-- Claim C2 (code_bug evaluation): building a Merkle tree over two (or
more) leaves fails: the hash callback handed to the merkletreejs
constructor unconditionally throws, so the first pairing step aborts the
construction and the round-trip property cannot even start. -/
theorem buildMerkleTree_multi_leaf_error :
    buildMerkleTree
      ["sha256:aaaaaaaaaaaaaaaaaaaaaaaaaaaaaaaaaaaaaaaaaaaaaaaaaaaaaaaaaaaaaaaa",
       "sha256:bbbbbbbbbbbbbbbbbbbbbbbbbbbbbbbbbbbbbbbbbbbbbbbbbbbbbbbbbbbbbbbb"] =
      Except.error "Failed to build Merkle tree: Use async version" := rfl

/-- Claim C9: building a Merkle tree over the empty hash list reports the
explicit empty-input error and returns no tree or root. -/
theorem buildMerkleTree_empty_error :
    buildMerkleTree [] = Except.error "Cannot build Merkle tree with no hashes" := rfl

/-- Claim C6 (code_bug evaluation): `validateCertificate` is not total over
untrusted input — on any primitive input (null, number, string, boolean)
the `field in cert` test throws a TypeError instead of returning false. -/
theorem validateCertificate_throws_on_primitive_input :
    validateCertificate Json.null = Except.error "TypeError" ∧
    validateCertificate (Json.num 5) = Except.error "TypeError" ∧
    validateCertificate (Json.str "not a certificate") = Except.error "TypeError" ∧
    validateCertificate (Json.bool true) = Except.error "TypeError" :=
  ⟨rfl, rfl, rfl, rfl⟩

/-- Claim C7 (counterexample): the localnet key-identity derivation does not
bind the owner identity — two distinct owner addresses with the same nonce
derive the same key identity, because the derivation uses only the
timestamp. -/
theorem sealKeyId_timestamp_ignores_owner :
    sealKeyIdFromTimestamp "0xaaaa" 1700000000000 =
      sealKeyIdFromTimestamp "0xbbbb" 1700000000000 ∧
    ("0xaaaa" : String) ≠ "0xbbbb" :=
  ⟨rfl, by decide⟩

/-- Claim C7 (amended): the owner-scoped (testnet) key-identity derivation
is a pure function of owner and nonce and binds the owner — for a fixed
nonce, equal key identities force equal owner identities. -/
theorem sealKeyIdOwnerNonce_binds_owner (o1 o2 : String) (n : Nat)
    (h : sealKeyIdOwnerNonce o1 n = sealKeyIdOwnerNonce o2 n) : o1 = o2 := by
  unfold sealKeyIdOwnerNonce at h
  have hdata := congrArg String.data h
  have hap : ∀ a b : String, (a ++ b).data = a.data ++ b.data := fun _ _ => rfl
  rw [hap, hap, hap, hap, List.append_assoc, List.append_assoc] at hdata
  exact string_data_inj (List.append_cancel_right hdata)

/-- Witness for `sealKeyIdOwnerNonce_binds_owner` at a concrete input. -/
theorem sealKeyIdOwnerNonce_binds_owner_witness : ("0xabc" : String) = "0xabc" :=
  sealKeyIdOwnerNonce_binds_owner "0xabc" "0xabc" 7 rfl

/-! ## Digest length facts for C8 -/

theorem digestBytes_length (r : Regs) : (digestBytes r).length = 32 := rfl

theorem sha256_length (msg : List Nat) : (sha256 msg).length = 32 :=
  digestBytes_length _

theorem hashBytes_length (b : List Nat) : (hashBytes b).length = 71 := by
  unfold hashBytes
  rw [String.length_append]
  show 7 + (hexEncode (sha256 b)).length = 71
  rw [hexEncode_length, sha256_length]

theorem hashString_length (s : String) : (hashString s).length = 71 := by
  unfold hashString
  rw [String.length_append]
  show 7 + (hexEncode (sha256 (utf8Bytes s))).length = 71
  rw [hexEncode_length, sha256_length]

theorem charsStartWith_append (p rest : List Char) : charsStartWith p (p ++ rest) = true := by
  induction p with
  | nil => rfl
  | cons c cs ih => simp [charsStartWith, ih]

theorem hexDigitChar_mem : ∀ v, v < 16 → hexDigitChar v ∈ lhexChars := by decide

theorem hexEncode_mem_lhex : ∀ bs : List Nat, (∀ b ∈ bs, b < 256) →
    ∀ c ∈ hexEncode bs, c ∈ lhexChars
  | [], _, c, hc => absurd hc (by simp [hexEncode])
  | b :: bs, hlt, c, hc => by
    have hb : b < 256 := hlt b (by simp)
    have h16a : b / 16 < 16 := by omega
    have h16b : b % 16 < 16 := by omega
    simp only [hexEncode, List.mem_cons] at hc
    rcases hc with rfl | rfl | hc
    · exact hexDigitChar_mem _ h16a
    · exact hexDigitChar_mem _ h16b
    · exact hexEncode_mem_lhex bs (fun x hx => hlt x (by simp [hx])) c hc

theorem be4_lt (w : Nat) : ∀ x ∈ be4 w, x < 256 := by
  intro x hx
  simp only [be4, List.mem_cons, List.not_mem_nil, or_false] at hx
  rcases hx with rfl | rfl | rfl | rfl <;> omega

theorem digestBytes_lt (r : Regs) : ∀ x ∈ digestBytes r, x < 256 := by
  intro x hx
  have hsplit : x ∈ be4 r.a ∨ x ∈ be4 r.b ∨ x ∈ be4 r.c ∨ x ∈ be4 r.d ∨
      x ∈ be4 r.e ∨ x ∈ be4 r.f ∨ x ∈ be4 r.g ∨ x ∈ be4 r.h := by
    simpa [digestBytes, List.mem_append, or_assoc] using hx
  rcases hsplit with h | h | h | h | h | h | h | h <;> exact be4_lt _ x h

theorem sha256_lt (msg : List Nat) : ∀ x ∈ sha256 msg, x < 256 :=
  digestBytes_lt _

theorem specDigestTextOk_tagged_hex (bs : List Nat) (hlt : ∀ x ∈ bs, x < 256)
    (hlen : bs.length = 32) :
    specDigestTextOk ("sha256:" ++ String.mk (hexEncode bs)) = true := by
  have h1 : ("sha256:" ++ String.mk (hexEncode bs)).length = 71 := by
    rw [String.length_append]
    show 7 + (hexEncode bs).length = 71
    rw [hexEncode_length, hlen]
  have h2 : strStartsWith ("sha256:" ++ String.mk (hexEncode bs)) "sha256:" = true := by
    show charsStartWith "sha256:".data ("sha256:".data ++ hexEncode bs) = true
    exact charsStartWith_append _ _
  have h3 : ((("sha256:" ++ String.mk (hexEncode bs)).data.drop 7).all
      fun c => lhexChars.contains c) = true := by
    have hdrop : ("sha256:" ++ String.mk (hexEncode bs)).data.drop 7 = hexEncode bs := rfl
    rw [hdrop, List.all_eq_true]
    intro c hc
    have hmem := hexEncode_mem_lhex bs hlt c hc
    simpa using hmem
  unfold specDigestTextOk
  rw [Bool.and_eq_true, Bool.and_eq_true]
  exact ⟨⟨by simp [h1], h2⟩, h3⟩

/-- Claim C8: the content digest operation is total and deterministic — for
every byte sequence (and every string, including the empty ones), hashing
succeeds, is a pure function of the input bytes, and always yields the
canonical 71-character "sha256:"-tagged lowercase-hex digest text. -/
theorem hashing_total_and_deterministic :
    (∀ b1 b2 : List Nat, b1 = b2 → hashBytes b1 = hashBytes b2) ∧
    (∀ b : List Nat, specDigestTextOk (hashBytes b) = true) ∧
    (∀ s1 s2 : String, s1 = s2 → hashString s1 = hashString s2) ∧
    (∀ s : String, specDigestTextOk (hashString s) = true) := by
  refine ⟨fun b1 b2 h => by rw [h], fun b => ?_, fun s1 s2 h => by rw [h], fun s => ?_⟩
  · show specDigestTextOk ("sha256:" ++ String.mk (hexEncode (sha256 b))) = true
    exact specDigestTextOk_tagged_hex _ (sha256_lt b) (sha256_length b)
  · show specDigestTextOk ("sha256:" ++ String.mk (hexEncode (sha256 (utf8Bytes s)))) = true
    exact specDigestTextOk_tagged_hex _ (sha256_lt _) (sha256_length _)

/-- Witness for `hashing_total_and_deterministic` at the empty byte
sequence and the empty string. -/
theorem hashing_total_and_deterministic_witness :
    hashBytes [] = hashBytes [] ∧ specDigestTextOk (hashBytes []) = true ∧
    hashString "" = hashString "" ∧ specDigestTextOk (hashString "") = true :=
  ⟨hashing_total_and_deterministic.1 [] [] rfl,
   hashing_total_and_deterministic.2.1 [],
   hashing_total_and_deterministic.2.2.1 "" "" rfl,
   hashing_total_and_deterministic.2.2.2 ""⟩

/-- Claim C10: building a Merkle tree over a single wellformed digest
succeeds, and the root is "0x" concatenated with the digest stripped of its
"sha256:" tag — the root of a one-leaf tree is the leaf itself, with no
hash application. -/
theorem buildMerkleTree_singleton_root (h : String)
    (hlen : (stripSha256 h).data.length = 64)
    (hhex : ∀ c ∈ (stripSha256 h).data, c ∈ lhexChars) :
    (buildMerkleTree [h]).map Prod.snd = Except.ok ("0x" ++ stripSha256 h) := by
  have hrt : hexEncode (hexDecode (stripSha256 h).data) = (stripSha256 h).data :=
    hexEncode_hexDecode _ hhex (by omega)
  have hb : buildMerkleTree [h] =
      Except.ok (⟨[hexDecode (stripSha256 h).data], [[hexDecode (stripSha256 h).data]]⟩,
        "0x" ++ String.mk (hexEncode (hexDecode (stripSha256 h).data))) := rfl
  rw [hb]
  show Except.ok ("0x" ++ String.mk (hexEncode (hexDecode (stripSha256 h).data))) =
    Except.ok ("0x" ++ stripSha256 h)
  rw [hrt]

/-- Witness for `buildMerkleTree_singleton_root` at the concrete digest `d71`. -/
theorem buildMerkleTree_singleton_root_witness :
    (buildMerkleTree [d71]).map Prod.snd = Except.ok ("0x" ++ stripSha256 d71) :=
  buildMerkleTree_singleton_root d71 (by decide) (by decide)

/-- Claim C3: canonicalization is a function of the logical non-proof,
non-storage content only — any two association-list certificates whose
fields outside the `proofs` and `storage` sections are the same up to
insertion order (with the JS-object guarantee of duplicate-free keys), and
with arbitrary, possibly different `proofs`/`storage` values, serialize to
the identical byte sequence. -/
theorem serializeForSigning_canonical (c1 c2 : List (String × Json))
    (hp : (stripPS c1).Perm (stripPS c2))
    (hnd : ((stripPS c1).map Prod.fst).Nodup) :
    serializeForSigning c1 = serializeForSigning c2 := by
  have hkeys : sortByKey id ((stripPS c1).map Prod.fst) =
      sortByKey id ((stripPS c2).map Prod.fst) := by
    apply sortByKey_eq_of_perm id (hp.map Prod.fst)
    simpa [List.map_id] using hnd
  show stringifyJson
      (filterJson (sortByKey id ((stripPS c1).map Prod.fst)) (Json.obj (stripPS c1))) =
    stringifyJson
      (filterJson (sortByKey id ((stripPS c2).map Prod.fst)) (Json.obj (stripPS c2)))
  rw [← hkeys]
  have hfields : sortByKey Prod.fst
      (filterFields (sortByKey id ((stripPS c1).map Prod.fst)) (stripPS c1)) =
    sortByKey Prod.fst
      (filterFields (sortByKey id ((stripPS c1).map Prod.fst)) (stripPS c2)) := by
    set P := sortByKey id ((stripPS c1).map Prod.fst) with hP
    apply sortByKey_eq_of_perm Prod.fst
    · rw [filterFields_eq, filterFields_eq]
      exact ((hp.filter _).map _)
    · rw [filterFields_eq, List.map_map]
      have hcomp : (Prod.fst ∘ fun kv : String × Json => (kv.1, filterJson P kv.2)) =
          Prod.fst := by
        funext kv; rfl
      rw [hcomp]
      exact hnd.sublist ((List.filter_sublist _).map Prod.fst)
  show stringifyJson (Json.obj (sortByKey Prod.fst
      (filterFields (sortByKey id ((stripPS c1).map Prod.fst)) (stripPS c1)))) =
    stringifyJson (Json.obj (sortByKey Prod.fst
      (filterFields (sortByKey id ((stripPS c1).map Prod.fst)) (stripPS c2))))
  rw [hfields]

/-- Witness for `serializeForSigning_canonical`: two concrete certificates
with permuted field insertion order and different proofs/storage annexes
serialize identically. -/
theorem serializeForSigning_canonical_witness :
    serializeForSigning c3certA = serializeForSigning c3certB :=
  serializeForSigning_canonical c3certA c3certB (List.Perm.swap _ _ _) (by decide)

/-- Claim C4: signature verification binds the signer to the certificate
author. `verifyCertificateSignature` returns true only if the address
recovered from the signature equals `cert.author.suiAddress`, and any
structurally valid signature whose recovered signer address differs from
the declared author verifies false. -/
theorem verifyCertificateSignature_eq
    (recoverAddr : String → String → Option String)
    (cert : List (String × Json)) (signature pk : String) :
    verifyCertificateSignature recoverAddr cert signature pk =
      (match recoverAddr (serializeForSigning (stripPS cert)) signature with
       | none => false
       | some addr =>
         match certAuthorSuiAddress cert with
         | some a => addr == a
         | none => false) := rfl

theorem verifyCertificateSignature_binds_author
    (recoverAddr : String → String → Option String)
    (cert : List (String × Json)) (signature pk : String) :
    (verifyCertificateSignature recoverAddr cert signature pk = true →
      ∃ a, recoverAddr (serializeForSigning (stripPS cert)) signature = some a ∧
        certAuthorSuiAddress cert = some a) ∧
    (∀ a b, recoverAddr (serializeForSigning (stripPS cert)) signature = some a →
      certAuthorSuiAddress cert = some b → a ≠ b →
      verifyCertificateSignature recoverAddr cert signature pk = false) := by
  constructor
  · intro hv
    rw [verifyCertificateSignature_eq] at hv
    cases hrec : recoverAddr (serializeForSigning (stripPS cert)) signature with
    | none => rw [hrec] at hv; simp at hv
    | some addr =>
      rw [hrec] at hv
      cases hauth : certAuthorSuiAddress cert with
      | none => rw [hauth] at hv; simp at hv
      | some a =>
        rw [hauth] at hv
        simp only [beq_iff_eq] at hv
        subst hv
        exact ⟨addr, rfl, rfl⟩
  · intro a b h1 h2 hne
    rw [verifyCertificateSignature_eq, h1, h2]
    simpa using hne

/-- Witness for `verifyCertificateSignature_binds_author`: a signature
recovering to 0x1111 on a certificate authored by 0x2222 verifies false. -/
theorem verifyCertificateSignature_binds_author_witness :
    verifyCertificateSignature recoverStub c4cert "sig" "pk" = false :=
  (verifyCertificateSignature_binds_author recoverStub c4cert "sig" "pk").2
    "0x1111" "0x2222" rfl rfl (by decide)

/-- Claim C5 (counterexample): structural validation does NOT enforce the
71-character lowercase-hex digest text encoding — a certificate whose
artifact digest is the 9-character string "sha256:zz" passes
`validateCertificate`, refuting "returns true only if the digest is exactly
sha256: followed by 64 lowercase hex characters". -/
theorem validateCertificate_accepts_noncanonical_digest :
    validateCertificate c5badCert = Except.ok true ∧
    certArtifactHash c5badCert = some "sha256:zz" ∧
    specDigestTextOk "sha256:zz" = false :=
  ⟨rfl, rfl, rfl⟩

/-- Claim C5 (amended): `validateCertificate` returns true only if the
artifact digest text is a string starting with the "sha256:" tag; it checks
the algorithm tag but not the 64-lowercase-hex/71-character form. -/
theorem validateCertificate_requires_sha256_tag (cert : Json)
    (hv : validateCertificate cert = Except.ok true) :
    ∃ h, certArtifactHash cert = some h ∧ strStartsWith h "sha256:" = true := by
  unfold validateCertificate at hv
  split at hv
  · exact absurd hv (by simp)
  · exact absurd hv (by simp)
  · split at hv
    · exact absurd hv (by simp)
    · exact absurd hv (by simp)
    · rename_i h hhash
      refine ⟨h, ?_, ?_⟩
      · unfold certArtifactHash
        rw [hhash]
      · split at hv
        · exact absurd hv (by simp)
        · rename_i hcond
          simpa using hcond
    · exact absurd hv (by simp)

/-- Witness for `validateCertificate_requires_sha256_tag` on a concrete
valid certificate. -/
theorem validateCertificate_requires_sha256_tag_witness :
    ∃ h, certArtifactHash c5goodCert = some h ∧ strStartsWith h "sha256:" = true :=
  validateCertificate_requires_sha256_tag c5goodCert rfl

end OpenTruth
